import Mathlib

/-!
Shallow embedding of the DPOGH/url-shortener core (src/src/index.tsx).

The program is a Hono app on Cloudflare Workers with one KV namespace.
We embed:
  * the KV namespace as a map from string keys to stored values,
  * the history helpers `addToHistory`, `getHistory`, `removeFromHistory`,
  * the key generator `createKey` (recursion over an explicit stream of
    random candidates, each candidate being `crypto.randomUUID().substring(0, 6)`),
  * the `POST /create` handler, the `POST /history/delete/:key` handler and
    the redirect route `GET /:key` with its `[0-9a-z]` pattern with 6 characters.

KV stores strings.  We model each stored string by its JSON parse status:
`StoredVal.plain s` is a string `s` on which `JSON.parse` throws (true of every
absolute URL the app stores under a short code), and `StoredVal.histJson l` is
`JSON.stringify` of a history array `l` (so `JSON.parse` recovers `l`).
Storage faults (a KV read or write throwing) are injected through explicit
boolean fault parameters on the handlers; a failed KV write has no effect.
-/

/-- A record of the history array (source type `HistoryItem`: fields
`key`, `url`, `createdAt`). -/
structure HistoryItem where
  key : String
  url : String
  createdAt : String
deriving DecidableEq, Repr

/-- A value stored in the KV namespace, classified by its JSON parse status:
`plain s` is a string on which `JSON.parse` throws (every stored URL is of this
kind), `histJson l` is the string `JSON.stringify(l)` for a history array `l`. -/
inductive StoredVal
  | plain (s : String)
  | histJson (l : List HistoryItem)
deriving DecidableEq, Repr

/-- The single KV namespace (`c.env.KV`): a map from keys to stored values. -/
def KVMap := String → Option StoredVal

/-- `KV.put(k, v)`. -/
def kvPut (kv : KVMap) (k : String) (v : StoredVal) : KVMap :=
  fun q => if q = k then some v else kv q

/-- `KV.delete(k)`: removes the mapping, succeeds even if absent. -/
def kvDelete (kv : KVMap) (k : String) : KVMap :=
  fun q => if q = k then none else kv q

/-- Source: `const HISTORY_KEY = '__history__'`. -/
def HISTORY_KEY : String := "__history__"

/-- JavaScript string escape used by `JSON.stringify` (quote and backslash;
control characters do not occur in the app's data). -/
def escapeJsonChar (c : Char) : String :=
  if c = '"' then "\\\"" else if c = '\\' then "\\\\" else String.singleton c

/-- Escape a whole string for JSON. -/
def escapeJson (s : String) : String :=
  String.join (s.toList.map escapeJsonChar)

/-- `JSON.stringify` of one history record. -/
def itemToJson (it : HistoryItem) : String :=
  "\x7b\"key\":\"" ++ escapeJson it.key ++ "\",\"url\":\"" ++ escapeJson it.url ++
    "\",\"createdAt\":\"" ++ escapeJson it.createdAt ++ "\"\x7d"

/-- `JSON.stringify` of a history array. -/
def histStringify (l : List HistoryItem) : String :=
  "[" ++ String.intercalate "," (l.map itemToJson) ++ "]"

/-- The string a `KV.get` returns for a stored value. -/
def storedString : StoredVal → String
  | .plain s => s
  | .histJson l => histStringify l

/-- The `JSON.parse`-with-catch pattern shared by the history helpers:
a missing value or an unparseable string yields the empty list. -/
def parseHistoryVal : Option StoredVal → List HistoryItem
  | none => []
  | some (.plain _) => []
  | some (.histJson l) => l

/-- Source `addToHistory`: read the blob under `HISTORY_KEY`, parse it
(catching parse failures as the empty list), `unshift` the new item at the
head, truncate with `slice(0, 500)` when the length exceeds 500, and write
the array back. -/
def addToHistory (kv : KVMap) (item : HistoryItem) : KVMap :=
  let list := parseHistoryVal (kv HISTORY_KEY)
  let list := item :: list
  let list := if list.length > 500 then list.take 500 else list
  kvPut kv HISTORY_KEY (.histJson list)

/-- Source `getHistory`: read the blob; a missing or unparseable blob
yields `[]`. -/
def getHistory (kv : KVMap) : List HistoryItem :=
  parseHistoryVal (kv HISTORY_KEY)

/-- Source `removeFromHistory`: a missing blob returns with no write; an
unparseable blob returns with no write (the `catch` branch); otherwise the
array is filtered by `item.key !== keyToRemove` and written back. -/
def removeFromHistory (kv : KVMap) (keyToRemove : String) : KVMap :=
  match kv HISTORY_KEY with
  | none => kv
  | some (.plain _) => kv
  | some (.histJson list) =>
      kvPut kv HISTORY_KEY (.histJson (list.filter fun item => item.key ≠ keyToRemove))

/-- JavaScript falsiness of the `kv.get` result in `createKey`
(`if (!result)`): `null` and the empty string are falsy. -/
def isFalsy : Option StoredVal → Bool
  | none => true
  | some (.plain s) => s = ""
  | some (.histJson _) => false

/-- Source `createKey`, embedded over an explicit stream of candidate codes
(each real candidate is `crypto.randomUUID().substring(0, 6)`): take the next
candidate, `kv.get` it; if the result is falsy, `kv.put` the URL under it and
return it, otherwise recurse on the rest of the stream.  The source recursion
has no retry cap; over a finite stream the embedding returns `none` when the
stream is exhausted. -/
def createKey (kv : KVMap) (url : String) : List String → Option (String × KVMap)
  | [] => none
  | cand :: rest =>
      if isFalsy (kv cand) then some (cand, kvPut kv cand (.plain url))
      else createKey kv url rest

/-- Character class of the redirect route pattern `[0-9a-z]`. -/
def isKeyChar (c : Char) : Bool :=
  ("0123456789abcdefghijklmnopqrstuvwxyz".toList).contains c

/-- The redirect route matcher: the path segment matches the pattern
`[0-9a-z]` repeated exactly 6 times. -/
def matchesKeyPattern (k : String) : Bool :=
  k.length = 6 && k.toList.all isKeyChar

/-- The redirect route body for a matched key: `KV.get(key)`; `null` renders
the not-found page, otherwise the handler redirects to the stored string. -/
def resolveKey (kv : KVMap) (k : String) : Option String :=
  match kv k with
  | none => none
  | some v => some (storedString v)

/-- Lowercase hexadecimal digit, the character class of a UUID's hex
positions. -/
def isHexLower (c : Char) : Bool :=
  ("0123456789abcdef".toList).contains c

/-- Character admissible at position `i` of an RFC 4122 version-4 UUID as
produced by `crypto.randomUUID()`: hyphens at positions 8, 13, 18, 23, the
version nibble `4` at position 14, the variant nibble in `[89ab]` at
position 19, and lowercase hex everywhere else. -/
def uuidCharOk (i : Nat) (c : Char) : Bool :=
  if i = 8 || i = 13 || i = 18 || i = 23 then c = '-'
  else if i = 14 then c = '4'
  else if i = 19 then c = '8' || c = '9' || c = 'a' || c = 'b'
  else isHexLower c

/-- Model of the output format of `crypto.randomUUID()` (the UUID string is
taken as its list of characters): 36 characters, each admissible at its
position. -/
def isUuidV4 (u : List Char) : Bool :=
  u.length = 36 && ((List.range 36).all fun i => uuidCharOk i (u.getD i ' '))

/-- `uuid.substring(0, 6)`: the candidate short code drawn from a UUID. -/
def uuidKey (u : List Char) : String :=
  (u.take 6).asString

/-- Outcome of the `POST /create` handler as seen by the caller. -/
inductive CreateResult
  | created (code : String)
  | internalError
deriving DecidableEq, Repr

/-- The `POST /create` handler: `createKey` commits the code→URL mapping,
then `addToHistory` appends the record.  `histFault := true` injects a
storage fault into the history read-modify-write; the handler's `catch`
then answers with the 500 error page while the committed mapping stays.
Exhaustion of the candidate stream (which the unbounded source recursion
never reports) is likewise answered by the `catch`. -/
def createPost (kv : KVMap) (cands : List String) (url : String)
    (createdAt : String) (histFault : Bool) : KVMap × CreateResult :=
  match createKey kv url cands with
  | none => (kv, .internalError)
  | some (code, kv₁) =>
      if histFault then (kv₁, .internalError)
      else (addToHistory kv₁ { key := code, url := url, createdAt := createdAt },
            .created code)

/-- The `POST /history/delete/:key` handler: `KV.delete(key)` then
`removeFromHistory`; both run inside one `try`, and any thrown error is
answered with `ok: false` (status 500).  `histFault := true` injects a
storage fault into `removeFromHistory`'s read-modify-write.  The returned
boolean is the `ok` field of the JSON response. -/
def deletePost (kv : KVMap) (key : String) (histFault : Bool) : KVMap × Bool :=
  let kv₁ := kvDelete kv key
  if histFault then (kv₁, false)
  else (removeFromHistory kv₁ key, true)

/-- The empty KV namespace. -/
def kvEmpty : KVMap := fun _ => none

/-- A sample history record for concrete instantiations. -/
def sampleItem : HistoryItem :=
  { key := "abc123", url := "https://example.com/a", createdAt := "2024-01-01T00:00:00.000Z" }

/-- A sample populated KV namespace: one link and the matching history blob. -/
def kvSample : KVMap := fun k =>
  if k = "abc123" then some (.plain "https://example.com/a")
  else if k = "__history__" then some (.histJson [sampleItem])
  else none

/-- A KV namespace whose history blob is an unparseable string. -/
def kvCorrupt : KVMap := fun k =>
  if k = "__history__" then some (.plain "not json") else none

/-- A sample `crypto.randomUUID()` output. -/
def sampleUuid : List Char := "abc123d4-e5f6-4a78-9b0c-d1e2f3a4b5c6".toList

/-- A code is a possible output of candidate generation when some
`crypto.randomUUID()` output yields it by `substring(0, 6)`. -/
def possibleGeneratedCode (s : String) : Prop :=
  ∃ u, isUuidV4 u = true ∧ uuidKey u = s

theorem kvPut_self (kv : KVMap) (k : String) (v : StoredVal) :
    kvPut kv k v k = some v := by
  simp [kvPut]

theorem kvPut_other (kv : KVMap) (k : String) (v : StoredVal) {q : String}
    (h : q ≠ k) : kvPut kv k v q = kv q := by
  simp [kvPut, h]

theorem kvDelete_self (kv : KVMap) (k : String) : kvDelete kv k k = none := by
  simp [kvDelete]

theorem kvDelete_other (kv : KVMap) (k : String) {q : String} (h : q ≠ k) :
    kvDelete kv k q = kv q := by
  simp [kvDelete, h]

theorem hex_keyChar {c : Char} (h : isHexLower c = true) : isKeyChar c = true := by
  have h' : c ∈ "0123456789abcdef".toList := by
    simpa [isHexLower] using h
  fin_cases h' <;> decide

theorem uuidKey_length {u : List Char} (h : isUuidV4 u = true) :
    (uuidKey u).length = 6 := by
  simp only [isUuidV4, Bool.and_eq_true, decide_eq_true_eq] at h
  show (u.take 6).asString.length = 6
  have he : (u.take 6).asString.length = (u.take 6).length := rfl
  rw [he, List.length_take]
  omega

theorem uuidKey_hex {u : List Char} (h : isUuidV4 u = true) :
    ∀ c ∈ (uuidKey u).toList, isHexLower c = true := by
  simp only [isUuidV4, Bool.and_eq_true, decide_eq_true_eq, List.all_eq_true,
    List.mem_range] at h
  obtain ⟨hlen, hall⟩ := h
  intro c hc
  have hc' : c ∈ u.take 6 := by
    have he : (uuidKey u).toList = u.take 6 := rfl
    rwa [he] at hc
  rw [List.mem_iff_getElem] at hc'
  obtain ⟨i, hi, hget⟩ := hc'
  have hi6 : i < 6 := by
    have hl := hi
    rw [List.length_take] at hl
    omega
  have hi36 : i < u.length := by omega
  have hgd : u.getD i ' ' = c := by
    rw [List.getD_eq_getElem _ _ hi36]
    rw [List.getElem_take] at hget
    exact hget
  have hok := hall i (by omega)
  rw [hgd] at hok
  interval_cases i <;> simpa [uuidCharOk] using hok

theorem uuidKey_matches {u : List Char} (h : isUuidV4 u = true) :
    matchesKeyPattern (uuidKey u) = true := by
  simp only [matchesKeyPattern, Bool.and_eq_true, decide_eq_true_eq,
    List.all_eq_true]
  exact ⟨uuidKey_length h, fun c hc => hex_keyChar (uuidKey_hex h c hc)⟩

theorem key_ne_historyKey {k : String} (h : k.length = 6) : k ≠ HISTORY_KEY := by
  intro he
  rw [he] at h
  exact absurd h (by decide)

/-- **C5 counterexample.** The code `zzzzzz` matches the route pattern
`[0-9a-z]` six times, yet no `crypto.randomUUID()` output can produce it:
the first six UUID characters are lowercase hex, so the generator's alphabet
excludes `g`–`z`. -/
theorem generator_not_full_alphabet :
    matchesKeyPattern "zzzzzz" = true ∧ ¬ possibleGeneratedCode "zzzzzz" := by
  refine ⟨by decide, ?_⟩
  rintro ⟨u, hu, hk⟩
  have hz : ('z' : Char) ∈ (uuidKey u).toList := by
    rw [hk]
    decide
  have := uuidKey_hex hu 'z' hz
  exact absurd this (by decide)

/-- **C5 (amended).** Every candidate code drawn by the generator is a
6-character string over the lowercase hex alphabet `[0-9a-f]` (16^6
possibilities); it matches `[0-9a-z]` six times, but is never a code with a
character outside the hex range. -/
theorem generator_hex_only (u : List Char) (hu : isUuidV4 u = true) :
    (uuidKey u).length = 6 ∧ (∀ c ∈ (uuidKey u).toList, isHexLower c = true) ∧
      matchesKeyPattern (uuidKey u) = true :=
  ⟨uuidKey_length hu, uuidKey_hex hu, uuidKey_matches hu⟩

/-- Witness for `generator_hex_only` at a concrete UUID. -/
theorem generator_hex_only_witness :
    isUuidV4 sampleUuid = true ∧
      ((uuidKey sampleUuid).length = 6 ∧
        (∀ c ∈ (uuidKey sampleUuid).toList, isHexLower c = true) ∧
        matchesKeyPattern (uuidKey sampleUuid) = true) :=
  ⟨by decide, generator_hex_only sampleUuid (by decide)⟩

/-- **C7.** With an unparseable history blob stored, `getHistory` returns the
empty list, `addToHistory` proceeds as if the history were empty (it writes
back exactly the one-record array), and `removeFromHistory` completes with no
error and no write. -/
theorem corrupt_history_degrades (kv : KVMap) (s : String) (item : HistoryItem)
    (key : String) (h : kv HISTORY_KEY = some (.plain s)) :
    getHistory kv = [] ∧
      addToHistory kv item = kvPut kv HISTORY_KEY (.histJson [item]) ∧
      removeFromHistory kv key = kv := by
  refine ⟨?_, ?_, ?_⟩
  · rw [getHistory, h]
    rfl
  · rw [addToHistory, h]
    rfl
  · rw [removeFromHistory, h]

/-- Witness for `corrupt_history_degrades` on a concrete corrupt store. -/
theorem corrupt_history_degrades_witness :
    kvCorrupt HISTORY_KEY = some (.plain "not json") ∧
      (getHistory kvCorrupt = [] ∧
        addToHistory kvCorrupt sampleItem =
          kvPut kvCorrupt HISTORY_KEY (.histJson [sampleItem]) ∧
        removeFromHistory kvCorrupt "abc123" = kvCorrupt) :=
  ⟨by decide, corrupt_history_degrades kvCorrupt "not json" sampleItem "abc123" (by decide)⟩

/-- **C9.** `removeFromHistory` filters: with a parseable blob `l` stored, the
history readable afterwards is exactly `l` with every record matching the key
removed; no matching record survives, and the survivors form a subsequence of
`l` (all other records unchanged, in order). -/
theorem remove_filters_all_matches (kv : KVMap) (l : List HistoryItem) (key : String)
    (h : kv HISTORY_KEY = some (.histJson l)) :
    getHistory (removeFromHistory kv key) = l.filter (fun r => r.key ≠ key) ∧
      (∀ r ∈ getHistory (removeFromHistory kv key), r.key ≠ key) ∧
      (getHistory (removeFromHistory kv key)).Sublist l := by
  have hres : getHistory (removeFromHistory kv key) = l.filter (fun r => r.key ≠ key) := by
    rw [removeFromHistory, h]
    show parseHistoryVal
      (kvPut kv HISTORY_KEY (.histJson (l.filter fun r => r.key ≠ key)) HISTORY_KEY) = _
    rw [kvPut_self]
    rfl
  refine ⟨hres, ?_, ?_⟩
  · intro r hr
    rw [hres] at hr
    have := List.of_mem_filter hr
    simpa using this
  · rw [hres]
    exact List.filter_sublist l

/-- Witness for `remove_filters_all_matches` on the sample store. -/
theorem remove_filters_all_matches_witness :
    kvSample HISTORY_KEY = some (.histJson [sampleItem]) ∧
      (getHistory (removeFromHistory kvSample "abc123") =
          [sampleItem].filter (fun r => r.key ≠ "abc123") ∧
        (∀ r ∈ getHistory (removeFromHistory kvSample "abc123"), r.key ≠ "abc123") ∧
        (getHistory (removeFromHistory kvSample "abc123")).Sublist [sampleItem]) :=
  ⟨by decide, remove_filters_all_matches kvSample [sampleItem] "abc123" (by decide)⟩

/-- **C10.** The history blob and the link mappings share one namespace but
cannot collide: a generated code has exactly 6 characters, hence differs from
the 11-character `__history__` key, so a link put or delete under it leaves
the history blob untouched; and the redirect route pattern rejects
`__history__`, so the blob is never resolved as a link. -/
theorem history_key_no_collision (u : List Char) (url : String) (kv : KVMap)
    (hu : isUuidV4 u = true) :
    (uuidKey u).length = 6 ∧ uuidKey u ≠ HISTORY_KEY ∧
      kvPut kv (uuidKey u) (.plain url) HISTORY_KEY = kv HISTORY_KEY ∧
      kvDelete kv (uuidKey u) HISTORY_KEY = kv HISTORY_KEY ∧
      matchesKeyPattern HISTORY_KEY = false := by
  have h6 := uuidKey_length hu
  have hne := key_ne_historyKey h6
  exact ⟨h6, hne, kvPut_other _ _ _ (Ne.symm hne), kvDelete_other _ _ (Ne.symm hne), by decide⟩

/-- Witness for `history_key_no_collision` at a concrete UUID and store. -/
theorem history_key_no_collision_witness :
    isUuidV4 sampleUuid = true ∧
      ((uuidKey sampleUuid).length = 6 ∧ uuidKey sampleUuid ≠ HISTORY_KEY ∧
        kvPut kvSample (uuidKey sampleUuid) (.plain "https://example.com/b") HISTORY_KEY =
          kvSample HISTORY_KEY ∧
        kvDelete kvSample (uuidKey sampleUuid) HISTORY_KEY = kvSample HISTORY_KEY ∧
        matchesKeyPattern HISTORY_KEY = false) :=
  ⟨by decide, history_key_no_collision sampleUuid "https://example.com/b" kvSample (by decide)⟩

/-- **C2 counterexample.** On the sample store, injecting a storage fault into
the history removal after `KV.delete` has succeeded (the mapping is gone)
makes the handler answer `ok: false` — not overall success as claimed. -/
theorem delete_fault_reports_failure_cex :
    (deletePost kvSample "abc123" true).1 "abc123" = none ∧
      (deletePost kvSample "abc123" true).2 = false := by
  constructor
  · show kvDelete kvSample "abc123" "abc123" = none
    exact kvDelete_self _ _
  · rfl

/-- **C2 (amended).** If `KV.delete` succeeds and the subsequent history
removal fails with a storage error, the handler reports failure
(`ok: false`, status 500) to the caller; the link deletion is not rolled back
and the stale history record remains. -/
theorem delete_fault_reports_failure (kv : KVMap) (key : String)
    (h6 : key.length = 6) :
    (deletePost kv key true).2 = false ∧
      (deletePost kv key true).1 key = none ∧
      getHistory ((deletePost kv key true).1) = getHistory kv := by
  refine ⟨rfl, kvDelete_self kv key, ?_⟩
  show parseHistoryVal (kvDelete kv key HISTORY_KEY) = _
  rw [kvDelete_other kv key (Ne.symm (key_ne_historyKey h6))]
  rfl

/-- Witness for `delete_fault_reports_failure` on the sample store. -/
theorem delete_fault_reports_failure_witness :
    ("abc123" : String).length = 6 ∧
      ((deletePost kvSample "abc123" true).2 = false ∧
        (deletePost kvSample "abc123" true).1 "abc123" = none ∧
        getHistory ((deletePost kvSample "abc123" true).1) = getHistory kvSample) :=
  ⟨by decide, delete_fault_reports_failure kvSample "abc123" (by decide)⟩

theorem createKey_some (kv : KVMap) (url : String) (cands : List String)
    (code : String) (kv₁ : KVMap)
    (h : createKey kv url cands = some (code, kv₁)) :
    code ∈ cands ∧ kv₁ = kvPut kv code (.plain url) := by
  induction cands with
  | nil => exact absurd h (by simp [createKey])
  | cons a rest ih =>
    rw [createKey] at h
    by_cases hf : isFalsy (kv a) = true
    · rw [if_pos hf] at h
      simp only [Option.some.injEq, Prod.mk.injEq] at h
      obtain ⟨rfl, rfl⟩ := h
      exact ⟨List.mem_cons_self a rest, rfl⟩
    · rw [if_neg hf] at h
      obtain ⟨h1, h2⟩ := ih h
      exact ⟨List.mem_cons_of_mem a h1, h2⟩

/-- **C6.** Embedded over an explicit stream of random candidates, the key
generator (which retries with the next drawn candidate on every collision and
has no retry cap) terminates and returns the first candidate of the stream
that is absent from the store, provided the stream contains at least one
absent code.  (The store holds no empty-string values — every stored URL is
a nonempty absolute URL — so the JS falsiness test coincides with absence.) -/
theorem createKey_returns_first_fresh (kv : KVMap) (url : String)
    (cands : List String)
    (hplain : ∀ c ∈ cands, kv c ≠ some (.plain ""))
    (h : ∃ c ∈ cands, kv c = none) :
    ∃ code, createKey kv url cands = some (code, kvPut kv code (.plain url)) ∧
      cands.find? (fun c => (kv c).isNone) = some code := by
  induction cands with
  | nil =>
    obtain ⟨c, hc, _⟩ := h
    exact absurd hc (List.not_mem_nil c)
  | cons a rest ih =>
    by_cases hf : isFalsy (kv a) = true
    · have ha : kv a = none := by
        cases hkv : kv a with
        | none => rfl
        | some v =>
          cases v with
          | plain s =>
            rw [hkv] at hf
            have hs : s = "" := by simpa [isFalsy] using hf
            subst hs
            exact absurd hkv (hplain a (List.mem_cons_self a rest))
          | histJson l =>
            rw [hkv] at hf
            exact absurd hf (by simp [isFalsy])
      refine ⟨a, ?_, ?_⟩
      · rw [createKey, if_pos hf]
      · rw [List.find?]
        simp [ha]
    · have hfb : isFalsy (kv a) = false := by
        revert hf
        cases isFalsy (kv a) <;> simp
      have ha : kv a ≠ none := by
        intro he
        rw [he] at hf
        exact hf rfl
      obtain ⟨v, hv⟩ := Option.ne_none_iff_exists'.mp ha
      have h' : ∃ c ∈ rest, kv c = none := by
        obtain ⟨c, hc, hcn⟩ := h
        rcases List.mem_cons.mp hc with rfl | hc'
        · exact absurd hcn ha
        · exact ⟨c, hc', hcn⟩
      have hplain' : ∀ c ∈ rest, kv c ≠ some (.plain "") := fun c hc =>
        hplain c (List.mem_cons_of_mem a hc)
      obtain ⟨code, h1, h2⟩ := ih hplain' h'
      refine ⟨code, ?_, ?_⟩
      · rw [createKey, if_neg hf, h1]
      · rw [List.find?]
        simp [hv, h2]

/-- Witness for `createKey_returns_first_fresh`: one colliding candidate,
then a fresh one. -/
theorem createKey_returns_first_fresh_witness :
    (∀ c ∈ ["abc123", "0f0f0f"], kvSample c ≠ some (.plain "")) ∧
      (∃ c ∈ ["abc123", "0f0f0f"], kvSample c = none) ∧
      ∃ code, createKey kvSample "https://example.com/b" ["abc123", "0f0f0f"] =
          some (code, kvPut kvSample code (.plain "https://example.com/b")) ∧
        ["abc123", "0f0f0f"].find? (fun c => (kvSample c).isNone) = some code :=
  ⟨by decide, by decide,
    createKey_returns_first_fresh kvSample "https://example.com/b"
      ["abc123", "0f0f0f"] (by decide) (by decide)⟩

/-- **C8.** On the create path, once `createKey` has committed the code→URL
mapping, a storage fault in the subsequent history append makes the handler
answer the 500 error page, but the committed mapping is not rolled back: the
code still resolves to the submitted URL. -/
theorem create_fault_no_rollback (kv : KVMap) (cands : List String)
    (url t code : String) (kv₁ : KVMap)
    (h : createKey kv url cands = some (code, kv₁)) :
    createPost kv cands url t true = (kv₁, .internalError) ∧
      resolveKey kv₁ code = some url := by
  constructor
  · rw [createPost, h]
    rfl
  · obtain ⟨_, rfl⟩ := createKey_some kv url cands code kv₁ h
    rw [resolveKey, kvPut_self]
    rfl

/-- Witness for `create_fault_no_rollback` on the empty store. -/
theorem create_fault_no_rollback_witness :
    createKey kvEmpty "https://example.com/a" ["abc123"] =
        some ("abc123", kvPut kvEmpty "abc123" (.plain "https://example.com/a")) ∧
      (createPost kvEmpty ["abc123"] "https://example.com/a" "t" true =
          (kvPut kvEmpty "abc123" (.plain "https://example.com/a"), .internalError) ∧
        resolveKey (kvPut kvEmpty "abc123" (.plain "https://example.com/a")) "abc123" =
          some "https://example.com/a") :=
  ⟨rfl, create_fault_no_rollback kvEmpty ["abc123"] "https://example.com/a" "t"
    "abc123" (kvPut kvEmpty "abc123" (.plain "https://example.com/a")) rfl⟩

theorem take_append_take {α : Type} (n : Nat) (a b : List α) :
    (a ++ b.take n).take n = (a ++ b).take n := by
  rw [List.take_append_eq_append_take, List.take_append_eq_append_take, List.take_take,
    Nat.min_eq_left (Nat.sub_le _ _)]

theorem getHistory_addToHistory (kv : KVMap) (item : HistoryItem)
    (_hle : (getHistory kv).length ≤ 500) :
    getHistory (addToHistory kv item) = (item :: getHistory kv).take 500 := by
  rw [addToHistory]
  show parseHistoryVal (kvPut kv HISTORY_KEY _ HISTORY_KEY) = _
  rw [kvPut_self]
  show (if (item :: getHistory kv).length > 500 then (item :: getHistory kv).take 500
    else item :: getHistory kv) = _
  by_cases hgt : (item :: getHistory kv).length > 500
  · rw [if_pos hgt]
  · rw [if_neg hgt, List.take_of_length_le (by omega)]

theorem getHistory_foldl (items : List HistoryItem) (kv : KVMap)
    (hle : (getHistory kv).length ≤ 500) :
    getHistory (items.foldl addToHistory kv) =
      (items.reverse ++ getHistory kv).take 500 := by
  induction items generalizing kv with
  | nil =>
    simp only [List.foldl_nil, List.reverse_nil, List.nil_append]
    rw [List.take_of_length_le hle]
  | cons i rest ih =>
    rw [List.foldl_cons]
    have hstep := getHistory_addToHistory kv i hle
    have hle' : (getHistory (addToHistory kv i)).length ≤ 500 := by
      rw [hstep, List.length_take]
      omega
    rw [ih (addToHistory kv i) hle', hstep, take_append_take,
      List.reverse_cons, List.append_assoc]
    rfl

/-- **C3.** Starting from an absent history blob, after 501 appends the
history has exactly 500 records, equal to the 500 most recently appended
ones newest-first (the oldest record was evicted). -/
theorem history_bounded_501 (items : List HistoryItem) (kv : KVMap)
    (h501 : items.length = 501) (h0 : kv HISTORY_KEY = none) :
    getHistory (items.foldl addToHistory kv) = items.reverse.take 500 ∧
      (getHistory (items.foldl addToHistory kv)).length = 500 := by
  have hemp : getHistory kv = [] := by
    rw [getHistory, h0]
    rfl
  have hfold := getHistory_foldl items kv (by rw [hemp]; simp)
  rw [hemp, List.append_nil] at hfold
  refine ⟨hfold, ?_⟩
  rw [hfold, List.length_take, List.length_reverse, h501]
  omega

/-- Witness for `history_bounded_501`: 501 concrete records into the empty
store. -/
theorem history_bounded_501_witness :
    ((List.range 501).map fun n =>
        ({ key := toString n, url := "https://example.com/a", createdAt := "t" } :
          HistoryItem)).length = 501 ∧
      kvEmpty HISTORY_KEY = none ∧
      (getHistory ((((List.range 501).map fun n =>
            ({ key := toString n, url := "https://example.com/a", createdAt := "t" } :
              HistoryItem))).foldl addToHistory kvEmpty) =
          (((List.range 501).map fun n =>
            ({ key := toString n, url := "https://example.com/a", createdAt := "t" } :
              HistoryItem))).reverse.take 500 ∧
        (getHistory ((((List.range 501).map fun n =>
            ({ key := toString n, url := "https://example.com/a", createdAt := "t" } :
              HistoryItem))).foldl addToHistory kvEmpty)).length = 500) :=
  ⟨by simp, rfl,
    history_bounded_501 _ kvEmpty (by simp) rfl⟩

theorem createKey_exists (kv : KVMap) (url : String) (cands : List String)
    (h : ∃ c ∈ cands, isFalsy (kv c) = true) :
    ∃ code kv₁, createKey kv url cands = some (code, kv₁) := by
  induction cands with
  | nil =>
    obtain ⟨c, hc, _⟩ := h
    exact absurd hc (List.not_mem_nil c)
  | cons a rest ih =>
    by_cases hf : isFalsy (kv a) = true
    · exact ⟨a, kvPut kv a (.plain url), by rw [createKey, if_pos hf]⟩
    · have h' : ∃ c ∈ rest, isFalsy (kv c) = true := by
        obtain ⟨c, hc, hct⟩ := h
        rcases List.mem_cons.mp hc with rfl | hc'
        · exact absurd hct hf
        · exact ⟨c, hc', hct⟩
      obtain ⟨code, kv₁, h1⟩ := ih h'
      exact ⟨code, kv₁, by rw [createKey, if_neg hf, h1]⟩

theorem addToHistory_other (kv : KVMap) (item : HistoryItem) {q : String}
    (h : q ≠ HISTORY_KEY) : addToHistory kv item q = kv q := by
  rw [addToHistory]
  exact kvPut_other _ _ _ h

/-- **C1.** For every submitted URL (query strings and fragments included),
when the candidate stream consists of `crypto.randomUUID().substring(0, 6)`
draws and contains at least one fresh candidate, the create flow returns a
code matching the pattern `[0-9a-z]` six times, and resolving that code
immediately afterwards (no interleaved operation) returns exactly the
submitted URL. -/
theorem create_resolve_roundtrip (kv : KVMap) (uuids : List (List Char))
    (url t : String)
    (hu : ∀ u ∈ uuids, isUuidV4 u = true)
    (hfresh : ∃ u ∈ uuids, kv (uuidKey u) = none) :
    ∃ code kv', createPost kv (uuids.map uuidKey) url t false = (kv', .created code) ∧
      matchesKeyPattern code = true ∧ resolveKey kv' code = some url := by
  have hex : ∃ c ∈ uuids.map uuidKey, isFalsy (kv c) = true := by
    obtain ⟨u, hu', hn⟩ := hfresh
    refine ⟨uuidKey u, List.mem_map_of_mem uuidKey hu', ?_⟩
    rw [hn]
    rfl
  obtain ⟨code, kv₁, hck⟩ := createKey_exists kv url (uuids.map uuidKey) hex
  obtain ⟨hmem, hshape⟩ := createKey_some kv url (uuids.map uuidKey) code kv₁ hck
  obtain ⟨u, huu, rfl⟩ := List.mem_map.mp hmem
  have hmatch : matchesKeyPattern (uuidKey u) = true := uuidKey_matches (hu u huu)
  refine ⟨uuidKey u, addToHistory kv₁ { key := uuidKey u, url := url, createdAt := t },
    ?_, hmatch, ?_⟩
  · rw [createPost, hck]
    rfl
  · rw [resolveKey, addToHistory_other kv₁ _
      (key_ne_historyKey (uuidKey_length (hu u huu))), hshape, kvPut_self]
    rfl

/-- Witness for `create_resolve_roundtrip`: a URL with query string and
fragment, created into the empty store. -/
theorem create_resolve_roundtrip_witness :
    (∀ u ∈ [sampleUuid], isUuidV4 u = true) ∧
      (∃ u ∈ [sampleUuid], kvEmpty (uuidKey u) = none) ∧
      ∃ code kv', createPost kvEmpty ([sampleUuid].map uuidKey)
          "https://example.com/p?q=1&r=2#frag" "t" false = (kv', .created code) ∧
        matchesKeyPattern code = true ∧
        resolveKey kv' code = some "https://example.com/p?q=1&r=2#frag" :=
  ⟨by decide, by decide,
    create_resolve_roundtrip kvEmpty [sampleUuid] "https://example.com/p?q=1&r=2#frag"
      "t" (by decide) (by decide)⟩

theorem removeFromHistory_lookup_other (kv : KVMap) (k : String) {q : String}
    (h : q ≠ HISTORY_KEY) : removeFromHistory kv k q = kv q := by
  unfold removeFromHistory
  cases hv : kv HISTORY_KEY with
  | none => rfl
  | some v =>
    cases v with
    | plain s => rfl
    | histJson l => exact kvPut_other _ _ _ h

theorem getHistory_remove (kv : KVMap) (k : String) :
    getHistory (removeFromHistory kv k) =
      (getHistory kv).filter (fun r => r.key ≠ k) := by
  unfold getHistory removeFromHistory
  cases hv : kv HISTORY_KEY with
  | none =>
    show parseHistoryVal (kv HISTORY_KEY) = _
    rw [hv]
    rfl
  | some v =>
    cases v with
    | plain s =>
      show parseHistoryVal (kv HISTORY_KEY) = _
      rw [hv]
      rfl
    | histJson l =>
      show parseHistoryVal
        (kvPut kv HISTORY_KEY (.histJson (l.filter fun r => r.key ≠ k)) HISTORY_KEY) = _
      rw [kvPut_self]
      rfl

/-- **C4.** After a successful run of the deletion handler for a 6-character
code, resolving the code yields the not-found outcome and the code is absent
from the history listing. -/
theorem delete_then_not_found (kv : KVMap) (key : String) (h6 : key.length = 6) :
    (deletePost kv key false).2 = true ∧
      resolveKey (deletePost kv key false).1 key = none ∧
      ∀ r ∈ getHistory (deletePost kv key false).1, r.key ≠ key := by
  have hne : key ≠ HISTORY_KEY := key_ne_historyKey h6
  refine ⟨rfl, ?_, ?_⟩
  · show resolveKey (removeFromHistory (kvDelete kv key) key) key = none
    rw [resolveKey, removeFromHistory_lookup_other _ _ hne, kvDelete_self]
  · intro r hr
    have hr' : r ∈ getHistory (removeFromHistory (kvDelete kv key) key) := hr
    rw [getHistory_remove] at hr'
    have := List.of_mem_filter hr'
    simpa using this

/-- Witness for `delete_then_not_found` on the sample store. -/
theorem delete_then_not_found_witness :
    ("abc123" : String).length = 6 ∧
      ((deletePost kvSample "abc123" false).2 = true ∧
        resolveKey (deletePost kvSample "abc123" false).1 "abc123" = none ∧
        ∀ r ∈ getHistory (deletePost kvSample "abc123" false).1, r.key ≠ "abc123") :=
  ⟨by decide, delete_then_not_found kvSample "abc123" (by decide)⟩
